import Mathlib

/-!
Verification of the slideflow tile-extraction and stain-normalization spec.

Shallow embedding of:
  * `src/slideflow/norm/torch/reinhard.py` (Reinhard stain normalizer),
  * `src/source/slideflow/__init__.py` (validation plan generation),
  * `src/source/slideflow/project.py` (corruption retry, skip-extracted filter).

Machine floats are modelled by ℚ.  torch yields NaN for a mean/std over an
empty selection and for a division by zero; ℚ has no NaN, so those junk values
(0 in ℚ) are never quoted by any theorem — statements about such inputs only
concern which branch the code takes (error vs. value, zero divisor, etc.).
-/

namespace Slideflow

/-- Arithmetic mean of a list of rationals (models `torch.mean` on a 1-D
selection). -/
def meanQ (xs : List ℚ) : ℚ := xs.sum / xs.length

/-- Unbiased sample variance: `torch.std` applies Bessel's correction,
dividing the summed squared deviations by `N - 1`. -/
def varQ (xs : List ℚ) : ℚ :=
  (xs.map (fun x => (x - meanQ xs) ^ 2)).sum / ((xs.length : ℚ) - 1)

/-- Standard deviation (models `torch.std`).  torch takes a real square root;
ℚ has no exact square root, so the pipeline is parametrized by a square-root
function `sqrtFn`.  Theorems that depend on a concrete root only ever use
`sqrtFn 0 = 0`, or pass context statistics that bypass `std` entirely. -/
def stdQ (sqrtFn : ℚ → ℚ) (xs : List ℚ) : ℚ := sqrtFn (varQ xs)

/-- An 8-bit RGB pixel (channel values 0–255). -/
abbrev Pixel := ℕ × ℕ × ℕ

/-- A tile image, flattened to its row-major pixel list (the W×H grid shape is
immaterial to every claim, which all quantify per pixel or per image). -/
abbrev Image := List Pixel

/-- A batch of tile images (`B × W × H × C` uint8 tensor). -/
abbrev Batch := List Image

/-- A triple of per-channel values in the normalization color space. -/
abbrev Lab := ℚ × ℚ × ℚ

/-- Modelled from the spec: the forward color conversion of
`slideflow/norm/torch/color.py` (`rgb_to_lab`) is not among the provided
sources.  Spec §2 (ColorSpaceConverter) only requires a per-pixel conversion
of 8-bit RGB into a perceptually uniform 3-channel space, round-trip stable
within 8-bit quantization, so the pipeline is parametrized over the
conversion.  `Conv` folds in the division by 255 that `lab_split` performs
before converting. -/
abbrev Conv := Pixel → Lab

/-- Modelled from the spec: the inverse conversion (`lab_to_rgb`, clip=False),
returning unit-range RGB; `merge_back` multiplies by 255 afterwards. -/
abbrev ConvInv := Lab → ℚ × ℚ × ℚ

/-- `lab_split` (reinhard.py:19–41): scale a uint8 RGB batch by 1/255, convert
to the normalization color space and unbind into the three channel batches.
The scaling and the pixel-wise conversion are fused into `conv`. -/
def lab_split (conv : Conv) (I : Batch) :
    List (List ℚ) × List (List ℚ) × List (List ℚ) :=
  (I.map (fun img => img.map (fun p => (conv p).1)),
   I.map (fun img => img.map (fun p => (conv p).2.1)),
   I.map (fun img => img.map (fun p => (conv p).2.2)))

/-- Truncating variant of `List.zipWith` for three lists (torch stacks three
equally-shaped channel tensors; lists of equal length in every use here). -/
def zipWith3 (f : α → β → γ → δ) : List α → List β → List γ → List δ
  | a :: as, b :: bs, c :: cs => f a b c :: zipWith3 f as bs cs
  | _, _, _ => []

/-- `merge_back` (reinhard.py:44–61): stack the three channels, convert back
to RGB and scale by 255. -/
def merge_back (convInv : ConvInv) (I1 I2 I3 : List (List ℚ)) :
    List (List (ℚ × ℚ × ℚ)) :=
  zipWith3 (fun c1 c2 c3 =>
    zipWith3 (fun a b c =>
      let rgb := convInv (a, b, c)
      (255 * rgb.1, 255 * rgb.2.1, 255 * rgb.2.2)) c1 c2 c3) I1 I2 I3

/-- `get_masked_mean_std` (reinhard.py:64–76): mark pure-background pixels
(`ones = torch.all(I == 255, dim=3)`), split into channels, select the
non-masked positions of the flattened batch (`I1[~ones]` flattens in row-major
order, i.e. in `flatten` order) and compute scalar per-channel mean and
standard deviation.  No branch of the source raises: an all-background input
yields torch-NaN statistics (the ℚ junk value is never quoted by a theorem). -/
def get_masked_mean_std (conv : Conv) (sqrtFn : ℚ → ℚ) (I : Batch) :
    Lab × Lab :=
  let ones : List (List Bool) :=
    I.map (fun img => img.map (fun p =>
      decide (p.1 = 255 ∧ p.2.1 = 255 ∧ p.2.2 = 255)))
  let chans := lab_split conv I
  let sel : List (List ℚ) → List ℚ := fun c =>
    (c.flatten.zip ones.flatten).filterMap
      (fun xo => if xo.2 then none else some xo.1)
  ((meanQ (sel chans.1), meanQ (sel chans.2.1), meanQ (sel chans.2.2)),
   (stdQ sqrtFn (sel chans.1), stdQ sqrtFn (sel chans.2.1),
    stdQ sqrtFn (sel chans.2.2)))

/-- `get_mean_std` (reinhard.py:79–108) with `reduce=False` (the default, and
what `transform` uses): per-image (`dim=(1,2)`) mean and standard deviation of
each channel batch, giving vectors of length B. -/
def get_mean_std (sqrtFn : ℚ → ℚ) (I1 I2 I3 : List (List ℚ)) :
    (List ℚ × List ℚ × List ℚ) × (List ℚ × List ℚ × List ℚ) :=
  ((I1.map meanQ, I2.map meanQ, I3.map meanQ),
   (I1.map (stdQ sqrtFn), I2.map (stdQ sqrtFn), I3.map (stdQ sqrtFn)))

/-- The `reduce=True` branch of `get_mean_std` (reinhard.py:101–104): average
the per-image means and standard deviations across the batch. -/
def get_mean_std_reduced (sqrtFn : ℚ → ℚ) (I1 I2 I3 : List (List ℚ)) :
    Lab × Lab :=
  let ms := get_mean_std sqrtFn I1 I2 I3
  ((meanQ ms.1.1, meanQ ms.1.2.1, meanQ ms.1.2.2),
   (meanQ ms.2.1, meanQ ms.2.2.1, meanQ ms.2.2.2))

/-- Message of the check at reinhard.py:136–139. -/
def ctxStdsMsg : String := "If 'ctx_stds' is provided, 'ctx_means' must not be None"

/-- Message of the check at reinhard.py:140–143. -/
def ctxMeansMsg : String := "If 'ctx_means' is provided, 'ctx_stds' must not be None"

/-- The inner `norm` helper of `transform` (reinhard.py:156–163):
`part1 = I - mean` (broadcast per image), `part2 = tgt_std / std`,
`part3 = part1 * part2`, result `part3 + tgt_mean`.  The division carries no
epsilon guard: a zero standard deviation is divided by as-is. -/
def normChannel (c : List (List ℚ)) (means stds : List ℚ)
    (tgtStd tgtMean : ℚ) : List (List ℚ) :=
  let part1 := List.zipWith (fun img m => img.map (fun x => x - m)) c means
  let part2 := stds.map (fun s => tgtStd / s)
  let part3 := List.zipWith (fun img sc => img.map (fun x => x * sc)) part1 part2
  part3.map (fun img => img.map (fun x => x + tgtMean))

/-- `torch.clip(merged, min=0, max=255).to(torch.uint8)` on one value: clamp,
then truncate to an 8-bit integer (truncation toward zero coincides with the
floor on the clamped, non-negative range). -/
def clipU8 (q : ℚ) : ℕ := Int.toNat ⌊max 0 (min 255 q)⌋

/-- Module-level `transform` (reinhard.py:111–174).  Checks the context
arguments for consistency, splits into channels, computes the whitespace mask
when `mask_threshold` is truthy (Python `if mask_threshold:` is falsy for
`None` and for `0.0`), takes source statistics from the context fit when
supplied (shape (3,1) scalars, broadcast across the batch) and otherwise from
the per-image statistics of the batch, rescales each channel, merges back,
clamps to [0,255], casts to uint8, and finally replaces the masked-off
(high-lightness) positions with the original input pixels
(`torch.where(mask, clipped, I)`). -/
def transform (conv : Conv) (convInv : ConvInv) (sqrtFn : ℚ → ℚ) (I : Batch)
    (tgtMean tgtStd : Lab) (ctxMean ctxStd : Option Lab)
    (maskThreshold : Option ℚ) : Except String Batch :=
  if ctxMean.isNone && ctxStd.isSome then .error ctxStdsMsg
  else if ctxStd.isNone && ctxMean.isSome then .error ctxMeansMsg
  else
    let chans := lab_split conv I
    let stats := match ctxMean, ctxStd with
      | some cm, some cs =>
          ((List.replicate I.length cm.1, List.replicate I.length cm.2.1,
            List.replicate I.length cm.2.2),
           (List.replicate I.length cs.1, List.replicate I.length cs.2.1,
            List.replicate I.length cs.2.2))
      | _, _ => get_mean_std sqrtFn chans.1 chans.2.1 chans.2.2
    let norm1 := normChannel chans.1 stats.1.1 stats.2.1 tgtStd.1 tgtMean.1
    let norm2 := normChannel chans.2.1 stats.1.2.1 stats.2.2.1 tgtStd.2.1 tgtMean.2.1
    let norm3 := normChannel chans.2.2 stats.1.2.2 stats.2.2.2 tgtStd.2.2 tgtMean.2.2
    let merged := merge_back convInv norm1 norm2 norm3
    let clipped := merged.map (fun img =>
      img.map (fun v => (clipU8 v.1, clipU8 v.2.1, clipU8 v.2.2)))
    match maskThreshold with
    | some t =>
        if t = 0 then .ok clipped
        else
          let mask := chans.1.map (fun img => img.map (fun l => decide (l / 100 < t)))
          .ok (zipWith3 (fun mrow crow irow =>
                 zipWith3 (fun m c i => if m then c else i) mrow crow irow)
               mask clipped I)
    | none => .ok clipped

/-- Shape-indexed result of the module-level `fit` (reinhard.py:177–200): the
masked path returns scalar per-channel statistics (tensor shape (3,1)); the
unmasked path returns per-image statistics (shape (3,B)), or batch-averaged
scalars when `reduce=True`. -/
inductive FitResult
  | scalar (means stds : Lab)
  | perImage (means stds : List ℚ × List ℚ × List ℚ)
deriving DecidableEq

/-- Module-level `fit` (reinhard.py:177–200).  No branch of the source raises
(there is no `EmptyMaskError` anywhere in the module); the `Except` wrapper
exists so the spec's claimed failure mode is statable, and every branch
returns `.ok`. -/
def fit (conv : Conv) (sqrtFn : ℚ → ℚ) (target : Batch)
    (reduce mask : Bool) : Except String FitResult :=
  if mask then
    let ms := get_masked_mean_std conv sqrtFn target
    .ok (.scalar ms.1 ms.2)
  else
    let chans := lab_split conv target
    if reduce then
      let ms := get_mean_std_reduced sqrtFn chans.1 chans.2.1 chans.2.2
      .ok (.scalar ms.1 ms.2)
    else
      let ms := get_mean_std sqrtFn chans.1 chans.2.1 chans.2.2
      .ok (.perImage ms.1 ms.2)

/-- The context-statistics fields `_ctx_means` / `_ctx_stds` of
`ReinhardFastNormalizer` (reinhard.py:220–221). -/
structure NormState where
  ctx_means : Option Lab
  ctx_stds : Option Lab
deriving DecidableEq

/-- `ReinhardFastNormalizer.set_context` (reinhard.py:349–355): compute the
masked mean/std of the image and store it.  (The numpy coercion, the unsqueeze
of a single image to a batch, and the `clip_size` cropping — utility code
outside the provided sources — do not affect whether statistics are stored,
which is all claim C2 concerns, and are modelled as identity on the abstract
batch.) -/
def set_context (conv : Conv) (sqrtFn : ℚ → ℚ) (_s : NormState) (I : Batch) :
    NormState :=
  let ms := get_masked_mean_std conv sqrtFn I
  { ctx_means := some ms.1, ctx_stds := some ms.2 }

/-- `ReinhardFastNormalizer.clear_context` (reinhard.py:357–358). -/
def clear_context (_s : NormState) : NormState :=
  { ctx_means := none, ctx_stds := none }

/-- `ReinhardFastNormalizer.image_context` (reinhard.py:343–347): a
`@contextmanager` whose generator body is
`set_context(I); yield; clear_context()` with no try/finally.  When the
`with`-block body raises, Python throws the exception into the generator at
the `yield`; the generator does not catch it, so it propagates and the
`clear_context()` line never executes.  The body's outcome is passed in as an
`Except` value; the function returns the propagated outcome and the final
normalizer state. -/
def image_context (conv : Conv) (sqrtFn : ℚ → ℚ) (s : NormState) (I : Batch)
    (body : Except String Unit) : Except String Unit × NormState :=
  let s1 := set_context conv sqrtFn s I
  match body with
  | .ok _ => (.ok (), clear_context s1)
  | .error e => (.error e, s1)

/-- `ReinhardFastNormalizer._get_context_means` (reinhard.py:279–287): stored
context statistics take precedence over call-level arguments. -/
def get_context_means (s : NormState) (ctxMeans ctxStds : Option Lab) :
    Option Lab × Option Lab :=
  match s.ctx_means, s.ctx_stds with
  | some m, some sd => (some m, some sd)
  | _, _ => (ctxMeans, ctxStds)

/-- Spec-side statement of the rescaling (spec §4.1, claim C9), written from
the spec's words for comparison with `transform`: for each channel,
`(pixel - source_mean) * (target_std / source_std) + target_mean`, with source
statistics taken from the context fit when supplied and otherwise computed
from the tile batch itself (per image of the batch); the result is clamped to
the valid numeric range and converted back to 8-bit RGB. -/
def specReinhardTransform (conv : Conv) (convInv : ConvInv) (sqrtFn : ℚ → ℚ)
    (I : Batch) (tgtMean tgtStd : Lab) (ctx : Option (Lab × Lab)) : Batch :=
  I.map (fun img =>
    let srcMean : Lab := match ctx with
      | some c => c.1
      | none =>
          (meanQ (img.map (fun p => (conv p).1)),
           meanQ (img.map (fun p => (conv p).2.1)),
           meanQ (img.map (fun p => (conv p).2.2)))
    let srcStd : Lab := match ctx with
      | some c => c.2
      | none =>
          (stdQ sqrtFn (img.map (fun p => (conv p).1)),
           stdQ sqrtFn (img.map (fun p => (conv p).2.1)),
           stdQ sqrtFn (img.map (fun p => (conv p).2.2)))
    img.map (fun p =>
      let l := conv p
      let r1 := (l.1 - srcMean.1) * (tgtStd.1 / srcStd.1) + tgtMean.1
      let r2 := (l.2.1 - srcMean.2.1) * (tgtStd.2.1 / srcStd.2.1) + tgtMean.2.1
      let r3 := (l.2.2 - srcMean.2.2) * (tgtStd.2.2 / srcStd.2.2) + tgtMean.2.2
      let rgb := convInv (r1, r2, r3)
      (clipU8 (255 * rgb.1), clipU8 (255 * rgb.2.1), clipU8 (255 * rgb.2.2))))

/-- Spec-side masked fit (spec §4.1, claim C8), written from the spec's words:
exclude exactly the pure-background pixels (all channels at the maximum value
255) across the whole batch, then compute per-channel mean and standard
deviation of the remaining pixels. -/
def specMaskedStats (conv : Conv) (sqrtFn : ℚ → ℚ) (I : Batch) : Lab × Lab :=
  let pix := (I.flatten.filter (fun p =>
      ! decide (p.1 = 255 ∧ p.2.1 = 255 ∧ p.2.2 = 255))).map conv
  ((meanQ (pix.map (fun l => l.1)), meanQ (pix.map (fun l => l.2.1)),
    meanQ (pix.map (fun l => l.2.2))),
   (stdQ sqrtFn (pix.map (fun l => l.1)), stdQ sqrtFn (pix.map (fun l => l.2.1)),
    stdQ sqrtFn (pix.map (fun l => l.2.2))))

/-- Modelled from the spec: a concrete ColorSpaceConverter instance (spec §2,
§4.1; the source's `slideflow/norm/torch/color.py` is not among the provided
files).  A linear luminance/opponent-channel map: L ∈ [0,100] is 100 × the
mean of the unit-scaled channels, the remaining channels are the R−G and G−B
opponents.  Exactly invertible over ℚ, hence round-trip stable within the
8-bit quantization §4.1 demands. -/
def rgbToLabModel : Conv := fun p =>
  let r : ℚ := p.1 / 255
  let g : ℚ := p.2.1 / 255
  let b : ℚ := p.2.2 / 255
  (100 * (r + g + b) / 3, r - g, g - b)

/-- Modelled from the spec: exact inverse of `rgbToLabModel`, returning
unit-range RGB (the ×255 rescale happens in `merge_back`). -/
def labToRgbModel : ConvInv := fun l =>
  let g : ℚ := (3 * l.1 / 100 - l.2.1 + l.2.2) / 3
  (g + l.2.1, g, g - l.2.2)

/-- `int(val_fraction * len(tfrecords))` (source/slideflow/__init__.py:241,
246): Python `int()` truncates toward zero; validation fractions are
non-negative, so this is the floor. -/
def num_val (valFraction : ℚ) (n : ℕ) : ℕ := Int.toNat ⌊valFraction * n⌋

/-- The validation strategies of the per-slide branch
(source/slideflow/__init__.py:240–319). -/
inductive ValStrategy
  | bootstrap | fixedStrat | kfold | noneStrat
deriving DecidableEq

/-- The persisted `validation_plan.json` contents relevant to the per-slide
branch: the `'fixed'` key (list of validation tfrecord filenames) and the
`'k-fold'` key (per-fold filename lists).  `none` models a missing log file or
a missing key. -/
structure ValPlan where
  fixedPlan : Option (List String)
  kfoldPlan : Option (List (List String))
deriving DecidableEq

/-- `split` (source/slideflow/__init__.py:305–307): slice `a` into `n` chunks,
chunk `i` being `a[i*k + min(i, m) : (i+1)*k + min(i+1, m)]` with
`k, m = divmod(len(a), n)`; the first `m` chunks receive one extra element. -/
def split (a : List α) (n : ℕ) : List (List α) :=
  let k := a.length / n
  let m := a.length % n
  (List.range n).map (fun i =>
    (a.drop (i * k + min i m)).take ((i + 1) * k + min (i + 1) m - (i * k + min i m)))

/-- `get_training_and_validation_tfrecords` (source/slideflow/__init__.py:175),
restricted to the `per-slide` validation target (lines 231–322).  Tfrecord
paths are modelled by their filenames (`tfr.split('/')[-1]` is the identity on
bare filenames, and the `[:-10]` slice stripping the `.tfrecords` suffix is
`String.dropRight 10`).  `shuffled` is the record list after the
`shuffle(tfrecords)` at line 236: the shuffle is an unseeded `random.shuffle`,
so one run of the function is parametrized by the order the shuffle produced,
and two independent runs may receive different permutations of the same record
set.  Returns (training records, validation records, resulting persisted
plan). -/
def get_training_and_validation_tfrecords (strategy : ValStrategy)
    (shuffled slideList : List String) (valFraction : ℚ)
    (kFold kFoldIndex : ℕ) (persisted : ValPlan) :
    List String × List String × ValPlan :=
  match strategy with
  | .bootstrap =>
      let nv := num_val valFraction shuffled.length
      (shuffled.drop nv, shuffled.take nv, persisted)
  | .fixedStrat =>
      let nv := num_val valFraction shuffled.length
      let genNew : List String × List String × ValPlan :=
        (shuffled.drop nv, shuffled.take nv,
         { persisted with fixedPlan := some (shuffled.take nv) })
      match persisted.fixedPlan with
      | none => genNew
      | some plan =>
          if plan.length ≠ nv then genNew
          else if plan.all (fun tf => decide (tf.dropRight 10 ∈ slideList)) then
            (shuffled.filter (fun tfr => decide (tfr ∉ plan)),
             shuffled.filter (fun tfr => decide (tfr ∈ plan)),
             persisted)
          else genNew
  | .kfold =>
      let genNew : List String × List String × ValPlan :=
        let sr := split shuffled kFold
        ((sr.eraseIdx kFoldIndex).flatten, sr.getD kFoldIndex [],
         { persisted with kfoldPlan := some sr })
      match persisted.kfoldPlan with
      | none => genNew
      | some plan =>
          if plan.length ≠ kFold then genNew
          else
            let loggedCases := plan.flatten
            if loggedCases.length ≠ shuffled.length then genNew
            else if loggedCases.all (fun tf => decide (tf.dropRight 10 ∈ slideList)) then
              (shuffled.filter (fun tfr =>
                 decide (tfr ∉ plan.getD kFoldIndex []) && decide (tfr ∈ loggedCases)),
               shuffled.filter (fun tfr => decide (tfr ∈ plan.getD kFoldIndex [])),
               persisted)
            else genNew
  | .noneStrat => (shuffled, [], persisted)

/-- Outcome of `predict_wsi` (project.py:753–791) for one slide. -/
inductive WsiOutcome
  | notLoaded
  | done
  | corruptSkipped
deriving DecidableEq

/-- `predict_wsi` (project.py:753–791).  `loaded b` models
`whole_slide.loaded_correctly()` and `decode b = true` models
`whole_slide.predict(...)` plus the pickle dump succeeding, `decode b = false`
models `predict` raising `TileCorruptionError`, for the attempt running with
`enable_downsample = b`.  Returns the final outcome and the downsample flags
of the decode attempts actually made, in order.  On corruption with
downsampling enabled the function re-runs itself once with downsampling
disabled (line 788); with downsampling already disabled it logs the corruption
and skips the slide (lines 790–791). -/
def predict_wsi (loaded decode : Bool → Bool) : Bool → WsiOutcome × List Bool
  | false =>
      if loaded false then
        if decode false then (.done, [false]) else (.corruptSkipped, [false])
      else (.notLoaded, [])
  | true =>
      if loaded true then
        if decode true then (.done, [true])
        else
          let r := predict_wsi loaded decode false
          (r.1, true :: r.2)
      else (.notLoaded, [])
termination_by b => cond b 1 0

/-- The skip-extracted filter of `extract_tiles` (project.py:929–941).
`tfrecordNames` are the `path_to_name`s of the tfrecords already present,
`unfinishedNames` the `path_to_name`s of the `*.unfinished` markers, and
`slideList` the `path_to_name`-normalized slides.  Each interrupted name is
deleted from the already-extracted list (`del lst[lst.index(x)]` removes the
first occurrence, exactly as `List.erase` does, and is guarded by a membership
test that `List.erase` subsumes); the new slide list then keeps the slides
whose name is not among the remaining already-extracted names.  Returns the
new slide list and the skipped (already-extracted) names. -/
def extract_tiles_skip (slideList tfrecordNames unfinishedNames : List String)
    (skipExtracted saveTfrecord : Bool) : List String × List String :=
  if skipExtracted && saveTfrecord then
    let already := unfinishedNames.foldl (fun acc i => acc.erase i) tfrecordNames
    (slideList.filter (fun s => decide (s ∉ already)), already)
  else (slideList, [])

/-- Decidable equality of `Except` results, so concrete runs of the embedded
functions can be checked by evaluation. -/
instance [DecidableEq ε] [DecidableEq α] : DecidableEq (Except ε α) := fun a b =>
  match a, b with
  | .error e, .error f =>
      if h : e = f then isTrue (congrArg Except.error h)
      else isFalse (fun c => h (Except.error.inj c))
  | .ok a, .ok b =>
      if h : a = b then isTrue (congrArg Except.ok h)
      else isFalse (fun c => h (Except.ok.inj c))
  | .error _, .ok _ => isFalse (fun c => Except.noConfusion c)
  | .ok _, .error _ => isFalse (fun c => Except.noConfusion c)

/-! ## List helper lemmas -/

lemma zipWith_map_same (f : β → γ → δ) (g : α → β) (h : α → γ) (l : List α) :
    List.zipWith f (l.map g) (l.map h) = l.map (fun x => f (g x) (h x)) := by
  induction l with
  | nil => rfl
  | cons a l ih => simp [ih]

lemma zipWith_map_replicate (f : β → γ → δ) (g : α → β) (c : γ) (l : List α) :
    List.zipWith f (l.map g) (List.replicate l.length c) =
      l.map (fun x => f (g x) c) := by
  induction l with
  | nil => rfl
  | cons a l ih => simp [List.replicate_succ, ih]

lemma zipWith3_map_same (f : β → γ → δ → ε) (g : α → β) (h : α → γ) (k : α → δ)
    (l : List α) :
    zipWith3 f (l.map g) (l.map h) (l.map k) =
      l.map (fun x => f (g x) (h x) (k x)) := by
  induction l with
  | nil => rfl
  | cons a l ih => simp [zipWith3, ih]

lemma zipWith3_map_left_self (f : β → γ → α → δ) (g : α → β) (l : List α)
    (c : List γ) :
    zipWith3 f (l.map g) c l = List.zipWith (fun x y => f (g x) y x) l c := by
  induction l generalizing c with
  | nil => cases c <;> rfl
  | cons a l ih =>
      cases c with
      | nil => rfl
      | cons b c => simp [zipWith3, ih]

lemma zip_map_filterMap (f : α → β) (g : α → Bool) (l : List α) :
    ((l.map f).zip (l.map g)).filterMap
        (fun xo => if xo.2 then none else some xo.1) =
      (l.filter (fun x => ! g x)).map f := by
  induction l with
  | nil => rfl
  | cons a l ih => by_cases h : g a <;> simp [List.filter_cons, h, ih]

lemma flatten_map_map (f : α → β) (l : List (List α)) :
    (l.map (fun xs => xs.map f)).flatten = l.flatten.map f := by
  induction l with
  | nil => rfl
  | cons a l ih => simp only [List.map_cons, List.flatten_cons, List.map_append, ih]

lemma meanQ_replicate (n : ℕ) (x : ℚ) (hn : n ≠ 0) :
    meanQ (List.replicate n x) = x := by
  simp only [meanQ, List.sum_replicate, List.length_replicate, nsmul_eq_mul]
  exact mul_div_cancel_left₀ x (Nat.cast_ne_zero.mpr hn)

lemma varQ_replicate (n : ℕ) (x : ℚ) (hn : n ≠ 0) :
    varQ (List.replicate n x) = 0 := by
  simp [varQ, List.map_replicate, meanQ_replicate n x hn]

lemma mem_foldl_erase [DecidableEq α] (ms : List α) :
    ∀ (l : List α), l.Nodup → ∀ x,
      (x ∈ ms.foldl (fun acc i => acc.erase i) l ↔ x ∈ l ∧ x ∉ ms) := by
  induction ms with
  | nil => intro l _ x; simp
  | cons i ms ih =>
      intro l hl x
      rw [List.foldl_cons, ih (l.erase i) (hl.erase i),
        List.Nodup.mem_erase_iff hl]
      simp only [List.mem_cons, not_or]
      tauto

/-! ## Theorems for the claims -/

/-- Claim C2 (code-bug evaluation): `image_context` is a `@contextmanager`
with no try/finally, so when the scope body raises, the stored context
substitution is NOT cleared — `_ctx_means` remains set after the scope exits
by exception, contradicting the spec's "exiting the scope clears the
substitution unconditionally, even on error paths".  The second conjunct shows
the normal-completion path does clear it. -/
theorem C2_image_context_not_cleared_on_error :
    ((image_context rgbToLabModel Rat.sqrt ⟨none, none⟩ [[(0, 0, 0)]]
        (.error "body failed")).2).ctx_means ≠ none
  ∧ (image_context rgbToLabModel Rat.sqrt ⟨none, none⟩ [[(0, 0, 0)]]
        (.ok ())).2 = ⟨none, none⟩ := by
  constructor
  · decide
  · rfl

/-- Claim C3: `predict_wsi`'s corruption handling.  For any decode behavior:
if both the downsampled attempt and the downsample-disabled retry raise
`TileCorruptionError`, the slide ends skipped after exactly the two attempts
`[true, false]` (no third attempt); if the retry succeeds, the job completes
after exactly those two attempts; starting with downsampling disabled, a
corruption is terminal immediately after the single attempt `[false]`; and no
run ever makes more than two decode attempts. -/
theorem C3_corruption_retry_bound (decode : Bool → Bool) :
    ((decode true = false ∧ decode false = false) →
       predict_wsi (fun _ => true) decode true = (.corruptSkipped, [true, false]))
  ∧ ((decode true = false ∧ decode false = true) →
       predict_wsi (fun _ => true) decode true = (.done, [true, false]))
  ∧ (decode false = false →
       predict_wsi (fun _ => true) decode false = (.corruptSkipped, [false]))
  ∧ (∀ b, (predict_wsi (fun _ => true) decode b).2.length ≤ 2) := by
  refine ⟨fun h => ?_, fun h => ?_, fun h => ?_, fun b => ?_⟩
  · simp [predict_wsi, h.1, h.2]
  · simp [predict_wsi, h.1, h.2]
  · simp [predict_wsi, h]
  · cases b <;> by_cases h1 : decode true <;> by_cases h2 : decode false <;>
      simp [predict_wsi, h1, h2]

/-- Witness for C3 at a concrete decode behavior: decoding always corrupt,
starting with downsampling enabled, skips the slide after exactly two
attempts. -/
theorem C3_corruption_retry_bound_witness :
    predict_wsi (fun _ => true) (fun _ => false) true =
      (.corruptSkipped, [true, false]) :=
  (C3_corruption_retry_bound (fun _ => false)).1 ⟨rfl, rfl⟩

/-- Claim C10: when exactly one of `ctx_mean` / `ctx_std` is supplied, the
module-level `transform` raises `ValueError` (one of the two messages) before
any processing: the result equals the result on the empty batch, i.e. it is
independent of the input, so no tile is ever partially processed under an
inconsistent context. -/
theorem C10_mismatched_context_rejected (conv : Conv) (convInv : ConvInv)
    (sqrtFn : ℚ → ℚ) (I : Batch) (tgtMean tgtStd : Lab)
    (ctxMean ctxStd : Option Lab) (mt : Option ℚ)
    (h : ctxMean.isSome ≠ ctxStd.isSome) :
    (transform conv convInv sqrtFn I tgtMean tgtStd ctxMean ctxStd mt =
        .error ctxStdsMsg
      ∨ transform conv convInv sqrtFn I tgtMean tgtStd ctxMean ctxStd mt =
        .error ctxMeansMsg)
  ∧ transform conv convInv sqrtFn I tgtMean tgtStd ctxMean ctxStd mt =
      transform conv convInv sqrtFn [] tgtMean tgtStd ctxMean ctxStd mt := by
  cases ctxMean <;> cases ctxStd <;> simp_all [transform]

/-- Witness for C10 at concrete inputs: means supplied without stds. -/
theorem C10_mismatched_context_rejected_witness :
    (transform rgbToLabModel labToRgbModel Rat.sqrt [[(1, 2, 3)]] (0, 0, 0)
        (1, 1, 1) (some (0, 0, 0)) none none = .error ctxStdsMsg
      ∨ transform rgbToLabModel labToRgbModel Rat.sqrt [[(1, 2, 3)]] (0, 0, 0)
        (1, 1, 1) (some (0, 0, 0)) none none = .error ctxMeansMsg)
  ∧ transform rgbToLabModel labToRgbModel Rat.sqrt [[(1, 2, 3)]] (0, 0, 0)
      (1, 1, 1) (some (0, 0, 0)) none none =
    transform rgbToLabModel labToRgbModel Rat.sqrt [] (0, 0, 0)
      (1, 1, 1) (some (0, 0, 0)) none none :=
  C10_mismatched_context_rejected rgbToLabModel labToRgbModel Rat.sqrt
    [[(1, 2, 3)]] (0, 0, 0) (1, 1, 1) (some (0, 0, 0)) none none (by decide)

/-- Claim C4 (code-bug evaluation): for a uniform-color batch every
per-channel source standard deviation that `transform` computes in its
no-context branch (`get_mean_std` over `lab_split`) is exactly zero, so the
scale `tgt_std / src_std` formed by `normChannel`'s `part2` divides by zero —
there is no epsilon substitution and the channel is not left unscaled (in
IEEE arithmetic the scale is infinite and the uniform channel becomes NaN). -/
theorem C4_uniform_source_std_is_zero (conv : Conv) (sqrtFn : ℚ → ℚ)
    (h0 : sqrtFn 0 = 0) (p : Pixel) (n : ℕ) (hn : 2 ≤ n) :
    (get_mean_std sqrtFn (lab_split conv [List.replicate n p]).1
      (lab_split conv [List.replicate n p]).2.1
      (lab_split conv [List.replicate n p]).2.2).2 = ([0], [0], [0]) := by
  have hn0 : n ≠ 0 := by omega
  simp [get_mean_std, lab_split, List.map_replicate, stdQ,
    varQ_replicate n _ hn0, h0]

/-- Witness for C4: a 2-pixel uniform mid-gray tile under the modelled
conversion and the rational square root. -/
theorem C4_uniform_source_std_is_zero_witness :
    Rat.sqrt 0 = 0 ∧ (2 : ℕ) ≤ 2
  ∧ (get_mean_std Rat.sqrt
      (lab_split rgbToLabModel [List.replicate 2 (100, 100, 100)]).1
      (lab_split rgbToLabModel [List.replicate 2 (100, 100, 100)]).2.1
      (lab_split rgbToLabModel [List.replicate 2 (100, 100, 100)]).2.2).2 =
      ([0], [0], [0]) :=
  ⟨by decide, by decide,
    C4_uniform_source_std_is_zero rgbToLabModel Rat.sqrt (by decide)
      (100, 100, 100) 2 (by decide)⟩

/-- Claim C6: with skip-extracted enabled (and records being saved), a slide
is skipped — removed from the slide list — iff its tfrecord already exists and
no `.unfinished` marker names it; a slide with a marker is re-extracted
regardless of its partial output.  `hnd` holds for directory listings, whose
names are distinct. -/
theorem C6_skip_extracted_iff (slideList tfrecordNames unfinishedNames : List String)
    (hnd : tfrecordNames.Nodup) (s : String) (hs : s ∈ slideList) :
    (s ∉ (extract_tiles_skip slideList tfrecordNames unfinishedNames true true).1)
      ↔ (s ∈ tfrecordNames ∧ s ∉ unfinishedNames) := by
  rw [show (extract_tiles_skip slideList tfrecordNames unfinishedNames true true).1 =
      slideList.filter (fun s => decide
        (s ∉ unfinishedNames.foldl (fun acc i => acc.erase i) tfrecordNames)) from rfl]
  rw [← mem_foldl_erase unfinishedNames tfrecordNames hnd s]
  simp [List.mem_filter, hs]

/-- Witness for C6, realizing the spec's 5-slide scenario: slides s1–s3 have
complete non-interrupted tfrecords, s4 has a tfrecord but an interrupted-job
marker, s5 has nothing; exactly s1–s3 are skipped and the remaining two
slides are processed. -/
theorem C6_skip_extracted_iff_witness :
    (extract_tiles_skip ["s1", "s2", "s3", "s4", "s5"] ["s1", "s2", "s3", "s4"]
        ["s4"] true true).1 = ["s4", "s5"]
  ∧ (("s1" ∉ (extract_tiles_skip ["s1", "s2", "s3", "s4", "s5"]
        ["s1", "s2", "s3", "s4"] ["s4"] true true).1)
      ↔ ("s1" ∈ (["s1", "s2", "s3", "s4"] : List String)
          ∧ "s1" ∉ (["s4"] : List String))) :=
  ⟨by decide,
    C6_skip_extracted_iff ["s1", "s2", "s3", "s4", "s5"] ["s1", "s2", "s3", "s4"]
      ["s4"] (by decide) "s1" (by decide)⟩

lemma zipWith_congr_fun (f g : α → β → γ) (hfg : ∀ a b, f a b = g a b)
    (l : List α) (c : List β) : List.zipWith f l c = List.zipWith g l c := by
  have h : f = g := funext fun a => funext fun b => hfg a b
  rw [h]

lemma masked_sel_eq (I : Batch) (f : Pixel → ℚ) :
    ((I.map (fun img => img.map f)).flatten.zip
        ((I.map (fun img => img.map (fun p =>
          decide (p.1 = 255 ∧ p.2.1 = 255 ∧ p.2.2 = 255)))).flatten)).filterMap
      (fun xo => if xo.2 then none else some xo.1) =
    (I.flatten.filter (fun p =>
      ! decide (p.1 = 255 ∧ p.2.1 = 255 ∧ p.2.2 = 255))).map f := by
  rw [flatten_map_map, flatten_map_map, zip_map_filterMap]

lemma get_masked_mean_std_eq_spec (conv : Conv) (sqrtFn : ℚ → ℚ) (I : Batch) :
    get_masked_mean_std conv sqrtFn I = specMaskedStats conv sqrtFn I := by
  simp only [get_masked_mean_std, specMaskedStats, lab_split, masked_sel_eq,
    List.map_map, Function.comp_def]

/-- Claim C8 (amended): the masked fit excludes exactly the pure-background
pixels — those with all channels at 255 — across the batch before computing
per-channel mean and standard deviation (`specMaskedStats` is written from the
spec's words), and it does so for every input, i.e. it never fails: there is
no `EmptyMaskError` raise anywhere in the module, so an all-background
reference degenerates (torch-NaN statistics) instead of failing. -/
theorem C8_masked_fit_excludes_background (conv : Conv) (sqrtFn : ℚ → ℚ)
    (target : Batch) (reduce : Bool) :
    fit conv sqrtFn target reduce true =
      .ok (.scalar (specMaskedStats conv sqrtFn target).1
        (specMaskedStats conv sqrtFn target).2) := by
  rw [show fit conv sqrtFn target reduce true =
      Except.ok (FitResult.scalar (get_masked_mean_std conv sqrtFn target).1
        (get_masked_mean_std conv sqrtFn target).2) from rfl,
    get_masked_mean_std_eq_spec]

/-- Claim C8 (counterexample to the claim as stated): a reference that is
entirely pure background (every pixel (255,255,255)) has an empty masked
pixel selection, yet `fit` with masking returns a value (`.ok`), not an
`EmptyMaskError` — the claimed failure does not exist in the code. -/
theorem C8_empty_mask_no_failure :
    (([[(255, 255, 255), (255, 255, 255)]] : Batch).flatten.filter (fun p =>
        ! decide (p.1 = 255 ∧ p.2.1 = 255 ∧ p.2.2 = 255))) = []
  ∧ (fit rgbToLabModel Rat.sqrt [[(255, 255, 255), (255, 255, 255)]]
      false true).toOption.isSome = true := by
  constructor <;> decide

/-- Claim C7 (amended): for every supplied nonzero `mask_threshold` t, the
masked transform equals the unmasked transform merged with the original
input pixel-by-pixel: a pixel whose lightness fraction is strictly below t
receives the rescaled (clipped) value, and a pixel at or above t is copied
bit-identically from the input.  (The boundary pixel — lightness exactly t —
is preserved, not rescaled, because the mask uses a strict `<`; and t = 0 is
excluded because Python's `if mask_threshold:` is falsy at 0.0, which
disables masking entirely.) -/
theorem C7_mask_above_threshold_preserved (conv : Conv) (convInv : ConvInv)
    (sqrtFn : ℚ → ℚ) (I : Batch) (tgtMean tgtStd : Lab)
    (ctxMean ctxStd : Option Lab) (t : ℚ) (ht : t ≠ 0) :
    transform conv convInv sqrtFn I tgtMean tgtStd ctxMean ctxStd (some t) =
      (transform conv convInv sqrtFn I tgtMean tgtStd ctxMean ctxStd none).map
        (fun clipped =>
          List.zipWith (fun imgOrig imgClip =>
              List.zipWith (fun p c => if (conv p).1 / 100 < t then c else p)
                imgOrig imgClip)
            I clipped) := by
  by_cases h1 : (ctxMean.isNone && ctxStd.isSome) = true
  · simp only [transform, h1, if_true, Except.map]
  · by_cases h2 : (ctxStd.isNone && ctxMean.isSome) = true
    · simp only [transform, h1, h2, if_false, if_true, Bool.false_eq_true,
        Except.map]
    · simp only [transform, h1, h2, Bool.false_eq_true, if_false, ht,
        Except.map, lab_split, List.map_map]
      congr 1
      rw [zipWith3_map_left_self]
      apply zipWith_congr_fun
      intro img crow
      simp only [Function.comp_def, List.map_map]
      rw [zipWith3_map_left_self]
      apply zipWith_congr_fun
      intro p c
      simp only [Function.comp_def, decide_eq_true_eq]

/-- Witness for C7 at concrete inputs: threshold 1/2 with a context fit. -/
theorem C7_mask_above_threshold_preserved_witness :
    transform rgbToLabModel labToRgbModel Rat.sqrt [[(255, 255, 255), (0, 0, 0)]]
        (0, 0, 0) (1, 1, 1) (some (50, 0, 0)) (some (1, 1, 1)) (some (1 / 2)) =
      (transform rgbToLabModel labToRgbModel Rat.sqrt [[(255, 255, 255), (0, 0, 0)]]
          (0, 0, 0) (1, 1, 1) (some (50, 0, 0)) (some (1, 1, 1)) none).map
        (fun clipped =>
          List.zipWith (fun imgOrig imgClip =>
              List.zipWith (fun p c =>
                  if (rgbToLabModel p).1 / 100 < (1 / 2 : ℚ) then c else p)
                imgOrig imgClip)
            [[(255, 255, 255), (0, 0, 0)]] clipped) :=
  C7_mask_above_threshold_preserved rgbToLabModel labToRgbModel Rat.sqrt
    [[(255, 255, 255), (0, 0, 0)]] (0, 0, 0) (1, 1, 1) (some (50, 0, 0))
    (some (1, 1, 1)) (1 / 2) (by norm_num)

/-- Claim C7 (counterexample to the claim as stated): with the supplied
threshold 0.0, masking is disabled by Python truthiness and a pixel of
lightness fraction 1 > 0 is rewritten (255,255,255) → (127,127,127), so it is
not bit-identical between input and output; and with threshold 1, the same
pixel — whose lightness fraction is exactly at the threshold — is copied
unchanged even though rescaling would have produced (127,127,127), refuting
"pixels at or below the threshold receive the statistical rescaling". -/
theorem C7_mask_threshold_counterexample :
    (rgbToLabModel (255, 255, 255)).1 / 100 = 1
  ∧ transform rgbToLabModel labToRgbModel Rat.sqrt [[(255, 255, 255)]]
      (0, 0, 0) (1, 1, 1) (some (50, 0, 0)) (some (1, 1, 1)) (some 0) =
      .ok [[(127, 127, 127)]]
  ∧ transform rgbToLabModel labToRgbModel Rat.sqrt [[(255, 255, 255)]]
      (0, 0, 0) (1, 1, 1) (some (50, 0, 0)) (some (1, 1, 1)) (some 1) =
      .ok [[(255, 255, 255)]]
  ∧ transform rgbToLabModel labToRgbModel Rat.sqrt [[(255, 255, 255)]]
      (0, 0, 0) (1, 1, 1) (some (50, 0, 0)) (some (1, 1, 1)) none =
      .ok [[(127, 127, 127)]] := by
  refine ⟨by with_unfolding_all decide, by with_unfolding_all decide,
    by with_unfolding_all decide, by with_unfolding_all decide⟩

lemma join_slices (f : ℕ → ℕ) :
    ∀ (n : ℕ) (a : List α), (∀ i, f i ≤ f (i + 1)) → f 0 = 0 → f n = a.length →
      ((List.range n).map (fun i => (a.drop (f i)).take (f (i + 1) - f i))).flatten
        = a := by
  intro n
  induction n with
  | zero =>
      intro a _ h0 hn
      have : a.length = 0 := by omega
      rw [List.range_zero, List.map_nil, List.flatten_nil,
        (List.length_eq_zero.mp this)]
  | succ n ih =>
      intro a hmono h0 hn
      have hmon : Monotone f := monotone_nat_of_le_succ hmono
      have hfn_le : f n ≤ a.length := hn ▸ hmon (Nat.le_succ n)
      rw [List.range_succ, List.map_append, List.flatten_append,
        List.map_cons, List.map_nil, List.flatten_cons, List.flatten_nil,
        List.append_nil]
      have htake : (a.take (f n)).length = f n := by
        rw [List.length_take]; omega
      have hih := ih (a.take (f n)) hmono h0 htake.symm
      have hsl : ∀ i ∈ List.range n,
          ((a.take (f n)).drop (f i)).take (f (i + 1) - f i) =
            (a.drop (f i)).take (f (i + 1) - f i) := by
        intro i hi
        have hi' : i < n := List.mem_range.mp hi
        have hf1 : f (i + 1) ≤ f n := hmon hi'
        rw [List.drop_take, List.take_take, Nat.min_eq_left (by omega)]
      rw [List.map_eq_map_iff.mpr hsl] at hih
      rw [hih]
      have hlast : (a.drop (f n)).take (f (n + 1) - f n) = a.drop (f n) := by
        have : (a.drop (f n)).length = f (n + 1) - f n := by
          rw [List.length_drop]; omega
        rw [← this, List.take_length]
      rw [hlast, List.take_append_drop]

lemma split_flatten (a : List α) (n : ℕ) (hn : 1 ≤ n) :
    (split a n).flatten = a := by
  unfold split
  apply join_slices (fun i => i * (a.length / n) + min i (a.length % n)) n a
  · intro i
    have h1 : i * (a.length / n) ≤ (i + 1) * (a.length / n) :=
      Nat.mul_le_mul_right _ (by omega)
    have h2 : min i (a.length % n) ≤ min (i + 1) (a.length % n) := by omega
    omega
  · simp
  · have hdm : n * (a.length / n) + a.length % n = a.length := Nat.div_add_mod _ _
    have hmn : a.length % n < n := Nat.mod_lt _ (by omega)
    have : min n (a.length % n) = a.length % n := by omega
    omega

lemma split_sizes (a : List α) (n : ℕ) (hn : 1 ≤ n) :
    (split a n).map List.length =
      (List.range n).map (fun i =>
        a.length / n + if i < a.length % n then 1 else 0) := by
  unfold split
  rw [List.map_map]
  apply List.map_eq_map_iff.mpr
  intro i hi
  have hi' : i < n := List.mem_range.mp hi
  obtain ⟨K, hK⟩ : ∃ x, x = a.length / n := ⟨_, rfl⟩
  obtain ⟨M, hM⟩ : ∃ x, x = a.length % n := ⟨_, rfl⟩
  rw [← hK, ← hM]
  have hdm : n * K + M = a.length := by rw [hK, hM]; exact Nat.div_add_mod _ _
  have hmn : M < n := by rw [hM]; exact Nat.mod_lt _ (by omega)
  have e1 : (i + 1) * K = i * K + K := by ring
  have e2 : (i + 1) * K ≤ n * K := Nat.mul_le_mul_right _ (by omega)
  have hmin1 : min (i + 1) M ≤ M := Nat.min_le_right _ _
  have hmin2 : min i M ≤ min (i + 1) M := by omega
  have hle : (i + 1) * K + min (i + 1) M ≤ a.length := by omega
  simp only [Function.comp_def, List.length_take, List.length_drop]
  rw [Nat.min_eq_left (by omega)]
  by_cases him : i < M
  · have h1 : min i M = i := by omega
    have h2 : min (i + 1) M = i + 1 := by omega
    rw [h1, h2, if_pos him]
    omega
  · have h1 : min i M = M := by omega
    have h2 : min (i + 1) M = M := by omega
    rw [h1, h2, if_neg him]
    omega

/-- Claim C5: the k-fold `split` partitions any record list: the
concatenation of the folds is exactly the input (so, for a duplicate-free
record list, every record lands in exactly one fold, with no omission, no
duplication and no overlap), fold `i` has size `len/k` plus one extra element
iff `i < len % k` (the remainder goes to the first folds), and any two fold
sizes differ by at most one. -/
theorem C5_kfold_split_partition {α : Type} [DecidableEq α]
    (a : List α) (n : ℕ) (hn : 1 ≤ n) :
    (split a n).flatten = a
  ∧ (split a n).map List.length =
      (List.range n).map (fun i =>
        a.length / n + if i < a.length % n then 1 else 0)
  ∧ (∀ l1 l2, l1 ∈ split a n → l2 ∈ split a n → l1.length ≤ l2.length + 1)
  ∧ (a.Nodup → ∀ r, r ∈ a →
      ((split a n).map (fun fold => fold.count r)).sum = 1) := by
  have hflat := split_flatten a n hn
  have hsz := split_sizes a n hn
  have hbound : ∀ l ∈ split a n,
      a.length / n ≤ l.length ∧ l.length ≤ a.length / n + 1 := by
    intro l hl
    have : l.length ∈ (split a n).map List.length := List.mem_map_of_mem _ hl
    rw [hsz] at this
    obtain ⟨i, _, hlen⟩ := List.mem_map.mp this
    by_cases him : i < a.length % n <;> simp [him] at hlen <;> omega
  refine ⟨hflat, hsz, ?_, ?_⟩
  · intro l1 l2 h1 h2
    have b1 := hbound l1 h1
    have b2 := hbound l2 h2
    omega
  · intro hnd r hr
    have : ((split a n).flatten).count r = 1 := by
      rw [hflat]; exact List.count_eq_one_of_mem hnd hr
    rw [List.count_flatten] at this
    exact this

/-- Witness for C5, realizing the spec's concrete scenario: 10 records with
k = 3 yield folds of sizes 4, 3, 3 whose concatenation is the full record
list, and the record r0 appears exactly once across the folds. -/
theorem C5_kfold_split_partition_witness :
    (split ["r0", "r1", "r2", "r3", "r4", "r5", "r6", "r7", "r8", "r9"] 3).flatten
      = ["r0", "r1", "r2", "r3", "r4", "r5", "r6", "r7", "r8", "r9"]
  ∧ (split ["r0", "r1", "r2", "r3", "r4", "r5", "r6", "r7", "r8", "r9"] 3).map
      List.length = [4, 3, 3]
  ∧ ((split ["r0", "r1", "r2", "r3", "r4", "r5", "r6", "r7", "r8", "r9"] 3).map
      (fun fold => fold.count "r0")).sum = 1 :=
  ⟨(C5_kfold_split_partition
      ["r0", "r1", "r2", "r3", "r4", "r5", "r6", "r7", "r8", "r9"] 3
      (by decide)).1,
   by decide,
   (C5_kfold_split_partition
      ["r0", "r1", "r2", "r3", "r4", "r5", "r6", "r7", "r8", "r9"] 3
      (by decide)).2.2.2 (by decide) "r0" (by decide)⟩

/-- Claim C1 (counterexample to the claim as stated): with no persisted plan,
two independent generations of a `fixed` plan from the same two-record set —
differing only in the order the unseeded `shuffle(tfrecords)` produced — assign
different records to validation and persist different plans, so `fixed` plans
are not byte-identical across independent runs (refuting "only `bootstrap` may
differ"). -/
theorem C1_fresh_fixed_plan_not_deterministic :
    List.Perm ["b.tfrecords", "a.tfrecords"] ["a.tfrecords", "b.tfrecords"]
  ∧ (get_training_and_validation_tfrecords .fixedStrat
      ["a.tfrecords", "b.tfrecords"] ["a", "b"] (1 / 2) 0 0 ⟨none, none⟩).2.1
      = ["a.tfrecords"]
  ∧ (get_training_and_validation_tfrecords .fixedStrat
      ["b.tfrecords", "a.tfrecords"] ["a", "b"] (1 / 2) 0 0 ⟨none, none⟩).2.1
      = ["b.tfrecords"]
  ∧ (get_training_and_validation_tfrecords .fixedStrat
      ["a.tfrecords", "b.tfrecords"] ["a", "b"] (1 / 2) 0 0 ⟨none, none⟩).2.2
      ≠ (get_training_and_validation_tfrecords .fixedStrat
      ["b.tfrecords", "a.tfrecords"] ["a", "b"] (1 / 2) 0 0 ⟨none, none⟩).2.2 :=
  ⟨List.Perm.swap "a.tfrecords" "b.tfrecords" [],
   by with_unfolding_all decide,
   by with_unfolding_all decide,
   by with_unfolding_all decide⟩

/-- Claim C1 (amended): fresh `fixed` plan generation covers every record
exactly once (validation ++ training is exactly the shuffled record list), but
is a function of the random shuffle order, so independent runs need not agree;
the determinism the code does provide is persisted-plan reuse: whenever a
persisted plan valid for the record set is present, any two runs — whatever
their shuffle orders — keep the plan unchanged and select the same validation
membership (equal as a set: exactly the records named by the plan). -/
theorem C1_plan_generation_amended :
    (∀ (s slideList : List String) (frac : ℚ) (kp : Option (List (List String))),
      (get_training_and_validation_tfrecords .fixedStrat s slideList frac 0 0
          ⟨none, kp⟩).2.1 ++
        (get_training_and_validation_tfrecords .fixedStrat s slideList frac 0 0
          ⟨none, kp⟩).1 = s)
  ∧ (∀ (s₁ s₂ slideList : List String) (frac : ℚ) (plan : List String)
        (kp : Option (List (List String))),
      List.Perm s₁ s₂ →
      plan.length = num_val frac s₁.length →
      plan.all (fun tf => decide (tf.dropRight 10 ∈ slideList)) = true →
      ((get_training_and_validation_tfrecords .fixedStrat s₁ slideList frac 0 0
          ⟨some plan, kp⟩).2.2 = ⟨some plan, kp⟩
       ∧ (get_training_and_validation_tfrecords .fixedStrat s₂ slideList frac 0 0
          ⟨some plan, kp⟩).2.2 = ⟨some plan, kp⟩
       ∧ List.Perm
          (get_training_and_validation_tfrecords .fixedStrat s₁ slideList frac 0 0
            ⟨some plan, kp⟩).2.1
          (get_training_and_validation_tfrecords .fixedStrat s₂ slideList frac 0 0
            ⟨some plan, kp⟩).2.1
       ∧ ∀ x, x ∈ (get_training_and_validation_tfrecords .fixedStrat s₁ slideList
            frac 0 0 ⟨some plan, kp⟩).2.1 ↔ x ∈ s₁ ∧ x ∈ plan)) := by
  constructor
  · intro s slideList frac kp
    simp only [get_training_and_validation_tfrecords]
    exact List.take_append_drop _ _
  · intro s₁ s₂ slideList frac plan kp hperm hlen hall
    have hlen2 : plan.length = num_val frac s₂.length := by
      rw [← hperm.length_eq]; exact hlen
    have h1 : get_training_and_validation_tfrecords .fixedStrat s₁ slideList frac
        0 0 ⟨some plan, kp⟩ =
        (s₁.filter (fun tfr => decide (tfr ∉ plan)),
         s₁.filter (fun tfr => decide (tfr ∈ plan)), ⟨some plan, kp⟩) := by
      simp only [get_training_and_validation_tfrecords]
      rw [if_neg (by simp [hlen]), if_pos hall]
    have h2 : get_training_and_validation_tfrecords .fixedStrat s₂ slideList frac
        0 0 ⟨some plan, kp⟩ =
        (s₂.filter (fun tfr => decide (tfr ∉ plan)),
         s₂.filter (fun tfr => decide (tfr ∈ plan)), ⟨some plan, kp⟩) := by
      simp only [get_training_and_validation_tfrecords]
      rw [if_neg (by simp [hlen2]), if_pos hall]
    refine ⟨by rw [h1], by rw [h2], ?_, ?_⟩
    · rw [h1, h2]
      exact hperm.filter _
    · intro x
      rw [h1]
      simp [List.mem_filter]

/-- Witness for C1's amended theorem at concrete inputs: coverage of a fresh
generation, and agreement of the validation membership across two shuffle
orders under a valid persisted plan. -/
theorem C1_plan_generation_amended_witness :
    (get_training_and_validation_tfrecords .fixedStrat
        ["a.tfrecords", "b.tfrecords"] ["a", "b"] (1 / 2) 0 0 ⟨none, none⟩).2.1 ++
      (get_training_and_validation_tfrecords .fixedStrat
        ["a.tfrecords", "b.tfrecords"] ["a", "b"] (1 / 2) 0 0 ⟨none, none⟩).1 =
      ["a.tfrecords", "b.tfrecords"]
  ∧ List.Perm
      (get_training_and_validation_tfrecords .fixedStrat
        ["a.tfrecords", "b.tfrecords"] ["a", "b"] (1 / 2) 0 0
        ⟨some ["a.tfrecords"], none⟩).2.1
      (get_training_and_validation_tfrecords .fixedStrat
        ["b.tfrecords", "a.tfrecords"] ["a", "b"] (1 / 2) 0 0
        ⟨some ["a.tfrecords"], none⟩).2.1 :=
  ⟨C1_plan_generation_amended.1 ["a.tfrecords", "b.tfrecords"] ["a", "b"]
      (1 / 2) none,
   (C1_plan_generation_amended.2 ["a.tfrecords", "b.tfrecords"]
      ["b.tfrecords", "a.tfrecords"] ["a", "b"] (1 / 2) ["a.tfrecords"] none
      (List.Perm.swap "b.tfrecords" "a.tfrecords" [])
      (by with_unfolding_all decide) (by decide)).2.2.1⟩

lemma normChannel_selfstats (sqrtFn : ℚ → ℚ) (f : Image → List ℚ)
    (tS tM : ℚ) (I : Batch) :
    normChannel (I.map f) ((I.map f).map meanQ) ((I.map f).map (stdQ sqrtFn))
        tS tM =
      I.map (fun img => (f img).map (fun x =>
        (x - meanQ (f img)) * (tS / stdQ sqrtFn (f img)) + tM)) := by
  simp only [normChannel, List.map_map, zipWith_map_same, Function.comp_def,
    List.map_map]

lemma normChannel_ctxstats (f : Image → List ℚ) (m s tS tM : ℚ) (I : Batch) :
    normChannel (I.map f) (List.replicate I.length m)
        (List.replicate I.length s) tS tM =
      I.map (fun img => (f img).map (fun x => (x - m) * (tS / s) + tM)) := by
  simp only [normChannel, zipWith_map_replicate, List.map_replicate]
  simp only [List.map_map, Function.comp_def]

/-- Claim C9: the module-level `transform` (with no whitespace mask) computes
exactly the spec's per-channel rescaling
`(pixel - source_mean) * (target_std / source_std) + target_mean`, with the
source statistics taken from the context fit when one is supplied and
otherwise computed per image of the tile batch, the result clamped to [0,255]
and cast back to 8-bit RGB (`specReinhardTransform` is written from the spec's
words). -/
theorem C9_transform_formula (conv : Conv) (convInv : ConvInv) (sqrtFn : ℚ → ℚ)
    (I : Batch) (tgtMean tgtStd : Lab) (ctxMean ctxStd : Option Lab)
    (h : ctxMean.isSome = ctxStd.isSome) :
    transform conv convInv sqrtFn I tgtMean tgtStd ctxMean ctxStd none =
      .ok (specReinhardTransform conv convInv sqrtFn I tgtMean tgtStd
        (match ctxMean, ctxStd with
         | some cm, some cs => some (cm, cs)
         | _, _ => none)) := by
  cases ctxMean with
  | none =>
      cases ctxStd with
      | some cs => simp at h
      | none =>
          simp only [transform, Option.isNone_none, Option.isSome_none,
            Bool.and_false, Bool.false_and, Bool.false_eq_true, if_false,
            lab_split, get_mean_std, specReinhardTransform]
          rw [normChannel_selfstats, normChannel_selfstats, normChannel_selfstats]
          simp only [merge_back, List.map_map, Function.comp_def,
            zipWith3_map_same, List.map_map]
  | some cm =>
      cases ctxStd with
      | none => simp at h
      | some cs =>
          simp only [transform, Option.isNone_some, Option.isSome_some,
            Bool.false_and, Bool.and_false, Bool.false_eq_true, if_false,
            lab_split, specReinhardTransform]
          rw [normChannel_ctxstats, normChannel_ctxstats, normChannel_ctxstats]
          simp only [merge_back, List.map_map, Function.comp_def,
            zipWith3_map_same, List.map_map]

/-- Witness for C9 at concrete inputs (no context fit supplied). -/
theorem C9_transform_formula_witness :
    transform rgbToLabModel labToRgbModel Rat.sqrt [[(10, 20, 30), (40, 50, 60)]]
        (1, 2, 3) (4, 5, 6) none none none =
      .ok (specReinhardTransform rgbToLabModel labToRgbModel Rat.sqrt
        [[(10, 20, 30), (40, 50, 60)]] (1, 2, 3) (4, 5, 6) none) :=
  C9_transform_formula rgbToLabModel labToRgbModel Rat.sqrt
    [[(10, 20, 30), (40, 50, 60)]] (1, 2, 3) (4, 5, 6) none none rfl

end Slideflow
